import Mathlib

/-!
# Verification of the image-analysis result cache (`scripts/image_cache.py`)

A shallow embedding of the `ImageAnalysisCache` component: MD5 fingerprinting
(`hashlib.md5(...).hexdigest()`), the composite `"<imgHash>:<queryHash>"` cache
key, the in-memory mapping (a Python `dict`, modelled as an insertion-ordered
association list), the persisted JSON snapshot, and the operations
`get`, `set`, `save`, `get_stats`, `clear_old_entries`, `clear_by_query`,
`clear_all` and `get_queries_analyzed`.

Bytes are modelled as `Nat` (values `< 256` where produced by files or UTF-8
encoding); 32-bit machine words as `Nat` reduced `% 2 ^ 32` at every step.
-/

set_option autoImplicit false
set_option maxRecDepth 4096

/-! ## MD5 (`hashlib.md5`), over byte lists -/

/-- The 64 MD5 sine-derived round constants `K[i] = floor(abs(sin(i+1)) * 2^32)`. -/
def md5K : List Nat := [
  3614090360, 3905402710, 606105819, 3250441966, 4118548399, 1200080426, 2821735955, 4249261313,
  1770035416, 2336552879, 4294925233, 2304563134, 1804603682, 4254626195, 2792965006, 1236535329,
  4129170786, 3225465664, 643717713, 3921069994, 3593408605, 38016083, 3634488961, 3889429448,
  568446438, 3275163606, 4107603335, 1163531501, 2850285829, 4243563512, 1735328473, 2368359562,
  4294588738, 2272392833, 1839030562, 4259657740, 2763975236, 1272893353, 4139469664, 3200236656,
  681279174, 3936430074, 3572445317, 76029189, 3654602809, 3873151461, 530742520, 3299628645,
  4096336452, 1126891415, 2878612391, 4237533241, 1700485571, 2399980690, 4293915773, 2240044497,
  1873313359, 4264355552, 2734768916, 1309151649, 4149444226, 3174756917, 718787259, 3951481745]

/-- The MD5 per-round left-rotation amounts. -/
def md5S : List Nat := [
  7, 12, 17, 22, 7, 12, 17, 22, 7, 12, 17, 22, 7, 12, 17, 22,
  5, 9, 14, 20, 5, 9, 14, 20, 5, 9, 14, 20, 5, 9, 14, 20,
  4, 11, 16, 23, 4, 11, 16, 23, 4, 11, 16, 23, 4, 11, 16, 23,
  6, 10, 15, 21, 6, 10, 15, 21, 6, 10, 15, 21, 6, 10, 15, 21]

/-- 32-bit rotate left of `x` (assumed `< 2^32`) by `s` (with `0 ≤ s ≤ 32`). -/
def rotl32 (x s : Nat) : Nat := (x * 2 ^ s + x / 2 ^ (32 - s)) % 4294967296

/-- 32-bit bitwise complement of `x` (assumed `< 2^32`). -/
def bnot32 (x : Nat) : Nat := Nat.xor x 4294967295

/-- Little-endian 4-byte encoding of a 32-bit word. -/
def le4 (n : Nat) : List Nat := [n % 256, n / 256 % 256, n / 65536 % 256, n / 16777216 % 256]

/-- Little-endian 8-byte encoding of a 64-bit length field. -/
def le8 (n : Nat) : List Nat := (List.range 8).map (fun i => n / 2 ^ (8 * i) % 256)

/-- MD5 padding: append `0x80`, zero bytes to reach 56 mod 64, then the
bit length (`8 * byte length`, mod `2^64`) as 8 little-endian bytes. -/
def md5Pad (msg : List Nat) : List Nat :=
  msg ++ 128 :: List.replicate ((119 - msg.length % 64) % 64) 0 ++
    le8 (8 * msg.length % 2 ^ 64)

/-- Decode a byte list into little-endian 32-bit words (groups of 4). -/
def toWordsLE : List Nat → List Nat
  | b0 :: b1 :: b2 :: b3 :: rest =>
    (b0 + 256 * b1 + 65536 * b2 + 16777216 * b3) :: toWordsLE rest
  | _ => []

/-- Split a byte list into 64-byte chunks (structural recursion on a fuel
bound; each step consumes at least one byte, so `fuel = l.length` suffices). -/
def chunks64Aux : Nat → List Nat → List (List Nat)
  | _, [] => []
  | 0, _ :: _ => []
  | fuel + 1, x :: rest => (x :: rest.take 63) :: chunks64Aux fuel (rest.drop 63)

/-- Split a byte list into 64-byte chunks. -/
def chunks64 (l : List Nat) : List (List Nat) := chunks64Aux l.length l

/-- One MD5 round: state `(A, B, C, D)`, message words `M`, round index `i`. -/
def md5Round (M : List Nat) (st : Nat × Nat × Nat × Nat) (i : Nat) : Nat × Nat × Nat × Nat :=
  let A := st.1; let B := st.2.1; let C := st.2.2.1; let D := st.2.2.2
  let F :=
    if i < 16 then Nat.lor (Nat.land B C) (Nat.land (bnot32 B) D)
    else if i < 32 then Nat.lor (Nat.land D B) (Nat.land (bnot32 D) C)
    else if i < 48 then Nat.xor B (Nat.xor C D)
    else Nat.xor C (Nat.lor B (bnot32 D))
  let g :=
    if i < 16 then i
    else if i < 32 then (5 * i + 1) % 16
    else if i < 48 then (3 * i + 5) % 16
    else (7 * i) % 16
  let Fv := (F + A + md5K.getD i 0 + M.getD g 0) % 4294967296
  (D, (B + rotl32 Fv (md5S.getD i 0)) % 4294967296, B, C)

/-- Process one 64-byte block, updating the running MD5 state. -/
def md5Block (st : Nat × Nat × Nat × Nat) (block : List Nat) : Nat × Nat × Nat × Nat :=
  let M := toWordsLE block
  let r := (List.range 64).foldl (md5Round M) st
  ((st.1 + r.1) % 4294967296, (st.2.1 + r.2.1) % 4294967296,
   (st.2.2.1 + r.2.2.1) % 4294967296, (st.2.2.2 + r.2.2.2) % 4294967296)

/-- The MD5 initial state. -/
def md5Init : Nat × Nat × Nat × Nat := (1732584193, 4023233417, 2562383102, 271733878)

/-- The 16-byte MD5 digest of a byte-list message. -/
def md5Bytes (msg : List Nat) : List Nat :=
  let st := (chunks64 (md5Pad msg)).foldl md5Block md5Init
  le4 st.1 ++ le4 st.2.1 ++ le4 st.2.2.1 ++ le4 st.2.2.2

/-- The 16 lowercase hexadecimal digit characters, in value order. -/
def hexDigitChars : List Char := "0123456789abcdef".data

/-- Lowercase hex digit for `n % 16`. -/
def hexDigit (n : Nat) : Char := hexDigitChars.getD (n % 16) '0'

/-- Two-character lowercase hex rendering of a byte. -/
def byteHex (b : Nat) : List Char := [hexDigit (b / 16), hexDigit b]

/-- `hashlib.md5(msg).hexdigest()`: the 32-character lowercase hex digest. -/
def md5Hex (msg : List Nat) : String := ⟨(md5Bytes msg).flatMap byteHex⟩

example : md5Hex [] = "d41d8cd98f00b204e9800998ecf8427e" := by decide
example : md5Hex [97] = "0cc175b9c0f1b6a831c399e269772661" := by decide
example : md5Hex [1, 2, 3] = "5289df737df57326fcdd22597afb1fac" := by decide

/-! ## Python string operations used by the cache, modelled on `String.data` -/

/-- UTF-8 encoding of a single character (`str.encode()` per character). -/
def utf8Bytes (c : Char) : List Nat :=
  let n := c.toNat
  if n < 128 then [n]
  else if n < 2048 then [192 + n / 64, 128 + n % 64]
  else if n < 65536 then [224 + n / 4096, 128 + n / 64 % 64, 128 + n % 64]
  else [240 + n / 262144, 128 + n / 4096 % 64, 128 + n / 64 % 64, 128 + n % 64]

/-- `s.encode()`: the UTF-8 bytes of a Python string. -/
def strBytes (s : String) : List Nat := s.data.flatMap utf8Bytes

/-- Python `key.endswith(suf)`. -/
def pyEndsWith (s suf : String) : Bool := suf.data.isSuffixOf s.data

/-- Split a character list at the first `':'`: `some (before, after)`, or
`none` when no `':'` occurs (Python `split(":", 1)` returning one piece). -/
def splitOnceColon : List Char → Option (List Char × List Char)
  | [] => none
  | c :: rest =>
    if c = ':' then some ([], rest)
    else match splitOnceColon rest with
      | some p => some (c :: p.1, p.2)
      | none => none

/-- `key.split(":", 1)[1]`: the query-fingerprint component of a cache key
(`none` models the `ValueError` Python raises when the key has no `':'`). -/
def keyQueryFingerprint (k : String) : Option String :=
  (splitOnceColon k.data).map (fun p => ⟨p.2⟩)

/-- The number of `':'` characters in a string. -/
def colonCount (s : String) : Nat := s.data.count ':'

/-! ## The data model of `ImageAnalysisCache` -/

/-- One cached analysis result: the value stored under a cache key by `set`
(the dict `{"is_match": ..., "explanation": ..., "image_path": ..., "timestamp": ...}`). -/
structure CacheEntry where
  is_match : Bool
  explanation : String
  image_path : String
  timestamp : String
deriving DecidableEq

/-- An image file as the cache sees it: its path, and its readable content
(`none` when any attempt to `open`/`read` it raises). -/
structure ImageFile where
  path : String
  content : Option (List Nat)
deriving DecidableEq

/-- The mutable state of an `ImageAnalysisCache` instance: the in-memory
`dict` (insertion-ordered association list, unique keys maintained by
`dictInsert`) and the `stats` counters. -/
structure CacheState where
  cache : List (String × CacheEntry)
  hits : Nat
  misses : Nat
  total_queries : Nat
deriving DecidableEq

/-- JSON values, for the persisted cache file. -/
inductive Json where
  | null
  | bool (b : Bool)
  | num (n : Int)
  | str (s : String)
  | arr (elems : List Json)
  | obj (fields : List (String × Json))

/-! ## Fingerprinting (`_get_image_hash`, `_get_query_hash`, `_get_cache_key`) -/

/-- `_get_image_hash`: MD5 over the first 1 MiB of the file's bytes; if the
file cannot be read, fall back to MD5 of the path string. -/
def get_image_hash (img : ImageFile) : String :=
  match img.content with
  | some bytes => md5Hex (bytes.take 1048576)
  | none => md5Hex (strBytes img.path)

/-- `_get_query_hash`: MD5 of the expanded query text. -/
def get_query_hash (q : String) : String := md5Hex (strBytes q)

/-- `_get_cache_key`: `f"{img_hash}:{query_hash}"`. -/
def get_cache_key (img : ImageFile) (q : String) : String :=
  get_image_hash img ++ ":" ++ get_query_hash q

/-! ## Operations -/

/-- Python `dict` assignment `d[k] = v`: replace the value in place when the
key is present, otherwise append the new binding at the end. -/
def dictInsert : List (String × CacheEntry) → String → CacheEntry → List (String × CacheEntry)
  | [], k, v => [(k, v)]
  | kv :: rest, k, v =>
    if kv.1 == k then (k, v) :: rest else kv :: dictInsert rest k v

/-- `get(image_path, expanded_query)`: look the composite key up; on a hit
bump `hits` and return the stored `(is_match, explanation)`, on a miss bump
`misses` and return `None`. -/
def CacheState.get (s : CacheState) (img : ImageFile) (q : String) :
    Option (Bool × String) × CacheState :=
  let key := get_cache_key img q
  match s.cache.lookup key with
  | some entry => (some (entry.is_match, entry.explanation), { s with hits := s.hits + 1 })
  | none => (none, { s with misses := s.misses + 1 })

/-- `set(image_path, expanded_query, is_match, explanation)`: store the entry
under the composite key; `now` is `datetime.now().isoformat()`. -/
def CacheState.set (s : CacheState) (img : ImageFile) (q : String)
    (is_match : Bool) (explanation : String) (now : String) : CacheState :=
  let key := get_cache_key img q
  { s with cache := dictInsert s.cache key ⟨is_match, explanation, img.path, now⟩ }

/-- `clear_by_query(expanded_query)`: drop every entry whose key ends with
`":" + query_hash`; return the number removed (the new state is then
persisted by `_save_cache`, modelled separately by `saveData`). -/
def CacheState.clear_by_query (s : CacheState) (q : String) : Nat × CacheState :=
  let query_hash := get_query_hash q
  let initial_count := s.cache.length
  let newCache := s.cache.filter (fun kv => ! pyEndsWith kv.1 (":" ++ query_hash))
  (initial_count - newCache.length, { s with cache := newCache })

/-- `clear_all()`: empty the mapping, return the prior entry count. -/
def CacheState.clear_all (s : CacheState) : Nat × CacheState :=
  (s.cache.length, { s with cache := [] })

/-- `get_queries_analyzed()`: the distinct query-fingerprint components of
all keys (Python builds a `set`; modelled as a deduplicated list). `none`
models the `ValueError` raised when some key contains no `':'`. -/
def collectFingerprints : List (String × CacheEntry) → Option (List String)
  | [] => some []
  | kv :: rest =>
    match keyQueryFingerprint kv.1, collectFingerprints rest with
    | some q, some l => some (q :: l)
    | _, _ => none

/-- `get_queries_analyzed()`, built from `collectFingerprints`. -/
def CacheState.get_queries_analyzed (s : CacheState) : Option (List String) :=
  (collectFingerprints s.cache).map List.dedup

/-! ## Timestamps (`datetime.fromisoformat`) and age-based eviction -/

/-- A Python `datetime` value. -/
structure PyDateTime where
  year : Nat
  month : Nat
  day : Nat
  hour : Nat
  minute : Nat
  second : Nat
  microsecond : Nat
deriving DecidableEq

/-- A packing of a `datetime` that is strictly monotone in the lexicographic
field order (for in-range fields), so `dtKey a < dtKey b` models `a < b`. -/
def dtKey (d : PyDateTime) : Nat :=
  ((((d.year * 13 + d.month) * 32 + d.day) * 24 + d.hour) * 60 + d.minute) * 60000000 +
    d.second * 1000000 + d.microsecond

/-- The numeric value of a decimal digit character, `none` otherwise. -/
def digitVal (c : Char) : Option Nat :=
  if 48 ≤ c.toNat ∧ c.toNat ≤ 57 then some (c.toNat - 48) else none

/-- Parse exactly `n` decimal digits from the front of a character list. -/
def parseDigits : Nat → List Char → Option (Nat × List Char)
  | 0, cs => some (0, cs)
  | _ + 1, [] => none
  | n + 1, c :: cs => do
    let d ← digitVal c
    let (r, rest) ← parseDigits n cs
    pure (d * 10 ^ n + r, rest)

/-- Parse the optional `HH:MM:SS[.ffffff]` tail of an ISO-8601 string. -/
def parseTime (cs : List Char) : Option (Nat × Nat × Nat × Nat) := do
  let (h, cs) ← parseDigits 2 cs
  match cs with
  | ':' :: cs => do
    let (mi, cs) ← parseDigits 2 cs
    match cs with
    | ':' :: cs => do
      let (sec, cs) ← parseDigits 2 cs
      match cs with
      | [] => pure (h, mi, sec, 0)
      | '.' :: cs => do
        let (us, cs) ← parseDigits 6 cs
        if cs = [] then pure (h, mi, sec, us) else none
      | _ => none
    | _ => none
  | _ => none

/-- `datetime.fromisoformat`: parse `YYYY-MM-DD[THH:MM:SS[.ffffff]]`, with
basic range validation; `none` models the `ValueError` raised on any other
string. -/
def fromisoformat (s : String) : Option PyDateTime := do
  let (y, cs) ← parseDigits 4 s.data
  match cs with
  | '-' :: cs => do
    let (mo, cs) ← parseDigits 2 cs
    match cs with
    | '-' :: cs => do
      let (d, cs) ← parseDigits 2 cs
      let dt ← match cs with
        | [] => pure (⟨y, mo, d, 0, 0, 0, 0⟩ : PyDateTime)
        | 'T' :: cs => do
          let (h, mi, sec, us) ← parseTime cs
          pure (⟨y, mo, d, h, mi, sec, us⟩ : PyDateTime)
        | _ => none
      if 1 ≤ dt.month ∧ dt.month ≤ 12 ∧ 1 ≤ dt.day ∧ dt.day ≤ 31 ∧
          dt.hour < 24 ∧ dt.minute < 60 ∧ dt.second < 60 then
        pure dt
      else none
    | _ => none
  | _ => none

/-- Parse every entry's timestamp in order; `none` at the first entry whose
timestamp `datetime.fromisoformat` rejects (the uncaught `ValueError`). -/
def parseTimestamps :
    List (String × CacheEntry) → Option (List ((String × CacheEntry) × PyDateTime))
  | [] => some []
  | kv :: rest =>
    match fromisoformat kv.2.timestamp, parseTimestamps rest with
    | some dt, some l => some ((kv, dt) :: l)
    | _, _ => none

/-- `clear_old_entries(days)`: keep exactly the entries whose parsed
timestamp is strictly after `cutoff` (= `datetime.now() - timedelta(days)`),
return the number removed. The dict comprehension calls
`datetime.fromisoformat` with no exception handling, so one unparsable
timestamp aborts the whole sweep: modelled as `Except.error`. -/
def CacheState.clear_old_entries (s : CacheState) (cutoff : PyDateTime) :
    Except String (Nat × CacheState) :=
  let initial_count := s.cache.length
  match parseTimestamps s.cache with
  | none => Except.error "ValueError: Invalid isoformat string"
  | some l =>
    let newCache := (l.filter (fun p => dtKey cutoff < dtKey p.2)).map (fun p => p.1)
    Except.ok (initial_count - newCache.length, { s with cache := newCache })

/-! ## Persistence (`_load_cache`, `_save_cache`) and construction -/

/-- Does the JSON value have this top-level key
(Python `isinstance(data, dict) and k in data`)? -/
def jsonHasKey (j : Json) (k : String) : Bool :=
  match j with
  | .obj fields => fields.any (fun f => f.1 == k)
  | _ => false

/-- `data[k]`: the first binding of `k` in a JSON object, else `null`. -/
def jsonGet (j : Json) (k : String) : Json :=
  match j with
  | .obj fields => ((fields.lookup k).getD .null)
  | _ => .null

/-- The persisted file as `_load_cache` sees it: `none` when the file does
not exist, `some (.error e)` when opening or `json.load` raises `e`, and
`some (.ok data)` when it parses to the JSON value `data`. -/
def FileRead : Type := Option (Except String Json)

/-- `_load_cache`: missing file or any read/parse exception degrade to the
empty mapping `{}`; a parsed dict with a `"cache"` key is unwrapped
(migration), anything else is returned as the cache content directly. -/
def load_cache (file : FileRead) : Json :=
  match file with
  | none => .obj []
  | some (.error _) => .obj []
  | some (.ok data) => if jsonHasKey data "cache" then jsonGet data "cache" else data

/-- `__init__`: construction always succeeds; the raw loaded cache content
plus zeroed stats (`hits`, `misses`, `total_queries`). -/
structure RawCache where
  cache : Json
  hits : Nat
  misses : Nat
  total_queries : Nat

/-- `ImageAnalysisCache(cache_file)`: load (never fatally) and zero the stats. -/
def mkImageAnalysisCache (file : FileRead) : RawCache :=
  { cache := load_cache file, hits := 0, misses := 0, total_queries := 0 }

/-- The JSON object `set` conceptually stores for one entry. -/
def entryToJson (e : CacheEntry) : Json :=
  .obj [("is_match", .bool e.is_match), ("explanation", .str e.explanation),
        ("image_path", .str e.image_path), ("timestamp", .str e.timestamp)]

/-- `_save_cache`: the JSON document written to disk — the cache mapping
plus a metadata block carrying `last_updated` (= `now`), the entry count and
the live stats counters. -/
def saveData (s : CacheState) (now : String) : Json :=
  .obj [("cache", .obj (s.cache.map (fun kv => (kv.1, entryToJson kv.2)))),
        ("metadata", .obj [
          ("last_updated", .str now),
          ("total_entries", .num s.cache.length),
          ("stats", .obj [
            ("hits", .num s.hits),
            ("misses", .num s.misses),
            ("total_queries", .num s.total_queries)])])]

/-! ## Statistics (`get_stats`) -/

/-- Round `num / den` to the nearest integer, ties to even (the rounding of
CPython's float formatting; exact on the claim's exactly-representable
instances). `den` is assumed positive. -/
def roundTiesEven (num den : Nat) : Nat :=
  let q := num / den
  let r := num % den
  if 2 * r < den then q
  else if den < 2 * r then q + 1
  else if q % 2 = 0 then q else q + 1

/-- `f"{hit_rate:.1f}%"` where
`hit_rate = (hits / total * 100) if total > 0 else 0`. -/
def hitRateString (hits misses : Nat) : String :=
  let total := hits + misses
  if total > 0 then
    let tenths := roundTiesEven (hits * 1000) total
    toString (tenths / 10) ++ "." ++ toString (tenths % 10) ++ "%"
  else "0.0%"

/-- `_get_cache_file_size`: human-readable size of the persisted file
(`none` when the file does not exist). -/
def formatFileSize (size : Option Nat) : String :=
  match size with
  | none => "0 KB"
  | some n =>
    if n < 1024 then toString n ++ " B"
    else if n < 1048576 then
      let tenths := roundTiesEven (n * 10) 1024
      toString (tenths / 10) ++ "." ++ toString (tenths % 10) ++ " KB"
    else
      let tenths := roundTiesEven (n * 10) 1048576
      toString (tenths / 10) ++ "." ++ toString (tenths % 10) ++ " MB"

/-- The dictionary returned by `get_stats`. -/
structure Stats where
  total_cached_entries : Nat
  cache_hits : Nat
  cache_misses : Nat
  hit_rate : String
  cache_file_size : String
deriving DecidableEq

/-- `get_stats()`; `fileSize` is the persisted file's current size on disk. -/
def CacheState.get_stats (s : CacheState) (fileSize : Option Nat) : Stats :=
  { total_cached_entries := s.cache.length,
    cache_hits := s.hits,
    cache_misses := s.misses,
    hit_rate := hitRateString s.hits s.misses,
    cache_file_size := formatFileSize fileSize }

/-! ## Reachable states

`__init__` zeroes the stats and installs whatever `_load_cache` produced;
every later state arises from the public mutating operations. `save`,
`get_stats` and `get_queries_analyzed` never change the state. -/

/-- States an `ImageAnalysisCache` instance can be in. -/
inductive Reachable : CacheState → Prop where
  | init (c : List (String × CacheEntry)) : Reachable ⟨c, 0, 0, 0⟩
  | get (s : CacheState) (img : ImageFile) (q : String) (h : Reachable s) :
      Reachable (s.get img q).2
  | set (s : CacheState) (img : ImageFile) (q : String) (b : Bool) (e now : String)
      (h : Reachable s) : Reachable (s.set img q b e now)
  | clear_by_query (s : CacheState) (q : String) (h : Reachable s) :
      Reachable (s.clear_by_query q).2
  | clear_all (s : CacheState) (h : Reachable s) : Reachable s.clear_all.2
  | clear_old_entries (s : CacheState) (cutoff : PyDateTime) (n : Nat) (s' : CacheState)
      (h : Reachable s) (hok : s.clear_old_entries cutoff = .ok (n, s')) : Reachable s'

/-! ## Basic lemmas about the map and the operations -/

theorem strBeqFalse {a b : String} (h : a ≠ b) : (a == b) = false :=
  Bool.eq_false_iff.mpr (fun hc => h (beq_iff_eq.mp hc))

theorem lookup_dictInsert_self (l : List (String × CacheEntry)) (k : String) (v : CacheEntry) :
    (dictInsert l k v).lookup k = some v := by
  induction l with
  | nil => simp [dictInsert, List.lookup]
  | cons kv rest ihl =>
    obtain ⟨k', v'⟩ := kv
    by_cases h : k' = k
    · subst h; simp [dictInsert, List.lookup]
    · simp [dictInsert, List.lookup, strBeqFalse h, strBeqFalse (Ne.symm h), ihl]

theorem mem_dictInsert (l : List (String × CacheEntry)) (k : String) (v : CacheEntry)
    (kv : String × CacheEntry) (h : kv ∈ dictInsert l k v) : kv = (k, v) ∨ kv ∈ l := by
  induction l with
  | nil => simpa [dictInsert] using h
  | cons kv' rest ihl =>
    obtain ⟨k1, v1⟩ := kv'
    by_cases hk : k1 = k
    · subst hk
      simp only [dictInsert, beq_self_eq_true, if_true] at h
      rcases List.mem_cons.mp h with h1 | h1
      · exact Or.inl h1
      · exact Or.inr (List.mem_cons_of_mem _ h1)
    · simp only [dictInsert, strBeqFalse hk, Bool.false_eq_true, if_false] at h
      rcases List.mem_cons.mp h with h1 | h1
      · exact Or.inr (h1 ▸ List.mem_cons_self _ _)
      · rcases ihl h1 with h2 | h2
        · exact Or.inl h2
        · exact Or.inr (List.mem_cons_of_mem _ h2)

theorem get_snd_cache (s : CacheState) (img : ImageFile) (q : String) :
    ((s.get img q).2).cache = s.cache := by
  simp only [CacheState.get]
  cases List.lookup (get_cache_key img q) s.cache <;> rfl

theorem clear_old_entries_ok (s : CacheState) (cutoff : PyDateTime) (n : Nat) (s' : CacheState)
    (hok : s.clear_old_entries cutoff = .ok (n, s')) :
    ∃ l, parseTimestamps s.cache = some l ∧
      s'.cache = (l.filter (fun p => dtKey cutoff < dtKey p.2)).map (fun p => p.1) ∧
      s'.hits = s.hits ∧ s'.misses = s.misses ∧ s'.total_queries = s.total_queries := by
  unfold CacheState.clear_old_entries at hok
  cases hp : parseTimestamps s.cache with
  | none => rw [hp] at hok; cases hok
  | some l =>
    rw [hp] at hok
    simp only [Except.ok.injEq, Prod.mk.injEq] at hok
    exact ⟨l, rfl, by rw [← hok.2], by rw [← hok.2], by rw [← hok.2], by rw [← hok.2]⟩

theorem parseTimestamps_mem (l : List (String × CacheEntry))
    (pl : List ((String × CacheEntry) × PyDateTime)) (h : parseTimestamps l = some pl) :
    ∀ p ∈ pl, p.1 ∈ l := by
  induction l generalizing pl with
  | nil =>
    simp only [parseTimestamps, Option.some.injEq] at h
    subst h; intro p hp; cases hp
  | cons kv rest ihl =>
    simp only [parseTimestamps] at h
    cases hdt : fromisoformat kv.2.timestamp with
    | none => rw [hdt] at h; cases h
    | some dt =>
      rw [hdt] at h
      cases hrest : parseTimestamps rest with
      | none => rw [hrest] at h; cases h
      | some pl' =>
        rw [hrest] at h
        simp only [Option.some.injEq] at h
        subst h
        intro p hp
        rcases List.mem_cons.mp hp with hp1 | hp1
        · subst hp1; exact List.mem_cons_self _ _
        · exact List.mem_cons_of_mem _ (ihl pl' hrest p hp1)

/-! ## Well-formed cache keys: `<32 hex chars>:<32 hex chars>` -/

/-- Is `c` a lowercase hexadecimal digit character? -/
def isHexChar (c : Char) : Bool := hexDigitChars.contains c

/-- A 32-character lowercase hexadecimal string (the shape of an MD5
`hexdigest()`). -/
def Hex32 (s : String) : Prop := s.data.length = 32 ∧ ∀ c ∈ s.data, isHexChar c = true

/-- The shape of every key `set` writes:
`<imageFingerprint>:<queryFingerprint>` with both parts 32-char hex. -/
def WellFormedKey (k : String) : Prop :=
  ∃ a b : String, k = a ++ ":" ++ b ∧ Hex32 a ∧ Hex32 b

/-- All keys of the in-memory mapping are well formed. -/
def AllKeysWF (s : CacheState) : Prop := ∀ kv ∈ s.cache, WellFormedKey kv.1

theorem isHexChar_hexDigit (n : Nat) : isHexChar (hexDigit n) = true := by
  have h : n % 16 < 16 := Nat.mod_lt _ (by norm_num)
  unfold hexDigit
  generalize n % 16 = m at h
  interval_cases m <;> rfl

theorem md5Bytes_length (m : List Nat) : (md5Bytes m).length = 16 := by
  simp [md5Bytes, le4]

theorem length_flatMap_byteHex (l : List Nat) : (l.flatMap byteHex).length = 2 * l.length := by
  induction l with
  | nil => rfl
  | cons b rest ihl => simp only [List.flatMap_cons, List.length_append, ihl, byteHex,
      List.length_cons, List.length_nil, List.length_cons]; omega

theorem hex32_md5Hex (m : List Nat) : Hex32 (md5Hex m) := by
  constructor
  · show ((md5Bytes m).flatMap byteHex).length = 32
    rw [length_flatMap_byteHex, md5Bytes_length]
  · intro c hc
    have hc' : c ∈ (md5Bytes m).flatMap byteHex := hc
    rcases List.mem_flatMap.mp hc' with ⟨b, _, hcb⟩
    simp only [byteHex, List.mem_cons, List.not_mem_nil, or_false] at hcb
    rcases hcb with rfl | rfl <;> exact isHexChar_hexDigit _

theorem hex32_no_colon {s : String} (h : Hex32 s) : ':' ∉ s.data := by
  intro hmem
  have := h.2 ':' hmem
  simp [isHexChar, hexDigitChars] at this

theorem hex32_image_hash (img : ImageFile) : Hex32 (get_image_hash img) := by
  unfold get_image_hash
  cases img.content <;> exact hex32_md5Hex _

theorem wellFormedKey_cache_key (img : ImageFile) (q : String) :
    WellFormedKey (get_cache_key img q) :=
  ⟨get_image_hash img, get_query_hash q, rfl, hex32_image_hash img, hex32_md5Hex _⟩

/-- The character content of a composite key. -/
theorem key_data (a b : String) :
    (a ++ ":" ++ b).data = a.data ++ ':' :: b.data := by
  rw [String.data_append, String.data_append, List.append_assoc]
  rfl

theorem splitOnceColon_append (a b : List Char) (ha : ':' ∉ a) :
    splitOnceColon (a ++ ':' :: b) = some (a, b) := by
  induction a with
  | nil => simp [splitOnceColon]
  | cons c rest ihl =>
    have hc : ¬ c = ':' := fun h => ha (h ▸ List.mem_cons_self _ _)
    have hr : ':' ∉ rest := fun h => ha (List.mem_cons_of_mem _ h)
    simp [splitOnceColon, hc, ihl hr]

theorem keyQueryFingerprint_key (a b : String) (ha : ':' ∉ a.data) :
    keyQueryFingerprint (a ++ ":" ++ b) = some b := by
  unfold keyQueryFingerprint
  rw [key_data, splitOnceColon_append _ _ ha]
  cases b
  rfl

theorem colonCount_key (a b : String) (ha : ':' ∉ a.data) (hb : ':' ∉ b.data) :
    colonCount (a ++ ":" ++ b) = 1 := by
  unfold colonCount
  rw [key_data, List.count_append, List.count_cons, List.count_eq_zero.mpr ha,
    List.count_eq_zero.mpr hb]
  rfl

theorem pyEndsWith_key (a b b' : String) (hlen : b.data.length = b'.data.length) :
    pyEndsWith (a ++ ":" ++ b) (":" ++ b') = true ↔ b' = b := by
  constructor
  · intro h
    have hsuf : (":" ++ b').data <:+ (a ++ ":" ++ b).data :=
      List.isSuffixOf_iff_suffix.mp h
    rw [key_data] at hsuf
    have hdata : (":" ++ b').data = ':' :: b'.data := by
      rw [String.data_append]; rfl
    rw [hdata] at hsuf
    obtain ⟨t, ht⟩ := hsuf
    have hlt : t.length = a.data.length := by
      have := congrArg List.length ht
      simp only [List.length_append, List.length_cons, hlen] at this
      omega
    have h2 := (List.append_inj ht hlt).2
    injection h2 with _ h3
    exact String.ext h3
  · intro h
    subst h
    apply List.isSuffixOf_iff_suffix.mpr
    rw [key_data]
    have hdata : (":" ++ b').data = ':' :: b'.data := by
      rw [String.data_append]; rfl
    rw [hdata]
    exact ⟨a.data, rfl⟩

theorem wellFormedKey_ne_cache {k : String} (h : WellFormedKey k) : k ≠ "cache" := by
  rcases h with ⟨a, b, rfl, ha, hb⟩
  intro hc
  have h1 : colonCount (a ++ ":" ++ b) = 1 :=
    colonCount_key a b (hex32_no_colon ha) (hex32_no_colon hb)
  rw [hc] at h1
  simp [colonCount] at h1

/-! ## The claims -/

/-- **C1.** For every image path and query string, `set(imagePath, query,
isMatch, explanation)` followed by `get(imagePath, query)` with the image
file unchanged in between returns exactly the stored `(isMatch,
explanation)` pair, unchanged (and the hit counter is incremented). -/
theorem get_after_set_returns_stored (s : CacheState) (img : ImageFile) (q : String)
    (b : Bool) (e now : String) :
    ((s.set img q b e now).get img q).1 = some (b, e) ∧
    ((s.set img q b e now).get img q).2.hits = s.hits + 1 := by
  constructor <;>
    simp [CacheState.get, CacheState.set, lookup_dictInsert_self]

/-- **C6.** Fingerprinting never fails: for an unreadable file the image
hash is the MD5 of the path string (the fallback), and `get`/`set` still
succeed on such a file (a `set` is found again by `get`). -/
theorem unreadable_file_fallback (p : String) (s : CacheState) (q : String)
    (b : Bool) (e now : String) :
    get_image_hash ⟨p, none⟩ = md5Hex (strBytes p) ∧
    ((s.set ⟨p, none⟩ q b e now).get ⟨p, none⟩ q).1 = some (b, e) :=
  ⟨rfl, by simp [CacheState.get, CacheState.set, lookup_dictInsert_self]⟩

/-- **C5.** The image fingerprint is a function of exactly the first 1 MiB
of a readable file's bytes — never of its path: two readable files whose
first-1-MiB prefixes agree get the same fingerprint, the same cache key for
every query, and identical `get` behaviour. -/
theorem image_hash_first_mib_only (f1 f2 : ImageFile) (b1 b2 : List Nat)
    (h1 : f1.content = some b1) (h2 : f2.content = some b2)
    (hpre : b1.take 1048576 = b2.take 1048576) :
    get_image_hash f1 = get_image_hash f2 ∧
    (∀ q, get_cache_key f1 q = get_cache_key f2 q) ∧
    (∀ (s : CacheState) (q : String), s.get f1 q = s.get f2 q) := by
  have hh : get_image_hash f1 = get_image_hash f2 := by
    simp [get_image_hash, h1, h2, hpre]
  have hk : ∀ q, get_cache_key f1 q = get_cache_key f2 q := fun q => by
    simp [get_cache_key, hh]
  exact ⟨hh, hk, fun s q => by simp [CacheState.get, hk q]⟩

/-- Witness for C5 at two concrete readable files with equal content but
different paths. -/
theorem image_hash_first_mib_only_witness :
    get_image_hash ⟨"a.jpg", some [1, 2, 3]⟩ = get_image_hash ⟨"b/other.png", some [1, 2, 3]⟩ ∧
    get_cache_key ⟨"a.jpg", some [1, 2, 3]⟩ "ocean scene" =
      get_cache_key ⟨"b/other.png", some [1, 2, 3]⟩ "ocean scene" :=
  ⟨(image_hash_first_mib_only _ _ [1, 2, 3] [1, 2, 3] rfl rfl rfl).1,
   (image_hash_first_mib_only _ _ [1, 2, 3] [1, 2, 3] rfl rfl rfl).2.1 "ocean scene"⟩

/-- **C7.** `get_stats` reports the hit rate as a one-decimal percentage
string: `"0.0%"` when no lookups have occurred, `"75.0%"` after exactly 3
hits and 1 miss. -/
theorem stats_hit_rate (s0 s3 : CacheState) (fs0 fs3 : Option Nat)
    (h0 : s0.hits = 0) (h0m : s0.misses = 0) (h3 : s3.hits = 3) (h1m : s3.misses = 1) :
    (s0.get_stats fs0).hit_rate = "0.0%" ∧ (s3.get_stats fs3).hit_rate = "75.0%" := by
  constructor
  · show hitRateString s0.hits s0.misses = "0.0%"
    rw [h0, h0m]
    rfl
  · show hitRateString s3.hits s3.misses = "75.0%"
    rw [h3, h1m]
    rfl

/-- Witness for C7 at concrete states with `(hits, misses) = (0, 0)` and
`(3, 1)`. -/
theorem stats_hit_rate_witness :
    ((⟨[], 0, 0, 0⟩ : CacheState).get_stats none).hit_rate = "0.0%" ∧
    ((⟨[], 3, 1, 0⟩ : CacheState).get_stats none).hit_rate = "75.0%" :=
  stats_hit_rate ⟨[], 0, 0, 0⟩ ⟨[], 3, 1, 0⟩ none none rfl rfl rfl rfl

/-- **C4.** A persisted file that is unreadable or unparsable (any
read/`json.load` exception `e`) never makes construction fail: the
component is built with an empty in-memory mapping and zeroed stats. -/
theorem construction_survives_corruption (e : String) :
    mkImageAnalysisCache (some (.error e)) =
      { cache := Json.obj [], hits := 0, misses := 0, total_queries := 0 } ∧
    load_cache (some (.error e)) = Json.obj [] :=
  ⟨rfl, rfl⟩

/-- **C3** (divergence witness). The claim says an unparsable timestamp must
not abort the eviction sweep; in the code the dict comprehension calls
`datetime.fromisoformat` with no exception handling, so `clear_old_entries`
propagates the `ValueError` to the caller: on a cache holding one entry
with timestamp `"not-a-date"`, the sweep aborts. -/
theorem clear_old_entries_aborts_on_malformed :
    CacheState.clear_old_entries
        ⟨[("k", ⟨true, "water visible", "photo1.jpg", "not-a-date"⟩)], 0, 0, 0⟩
        ⟨2024, 1, 1, 0, 0, 0, 0⟩ =
      Except.error "ValueError: Invalid isoformat string" := by
  rfl

theorem length_filter_not_add {α : Type} (p : α → Bool) (l : List α) :
    (l.filter (fun x => ! p x)).length + (l.filter p).length = l.length := by
  induction l with
  | nil => rfl
  | cons x rest ihl =>
    cases hx : p x <;> simp [List.filter_cons, hx, ← ihl] <;> omega

/-- On a well-formed key, the `endswith(":" + qh)` test of `clear_by_query`
agrees exactly with "the key's query-fingerprint component equals `qh`". -/
theorem pyEndsWith_eq_fingerprint_check {k qh' : String}
    (hk : WellFormedKey k) (hq : Hex32 qh') :
    pyEndsWith k (":" ++ qh') = (keyQueryFingerprint k == some qh') := by
  rcases hk with ⟨a, b, rfl, ha, hb⟩
  rw [keyQueryFingerprint_key a b (hex32_no_colon ha)]
  apply Bool.eq_iff_iff.mpr
  rw [pyEndsWith_key a b qh' (by rw [hb.1, hq.1]), beq_iff_eq, Option.some_inj]
  exact eq_comm

/-- **C2.** Entries under two queries with different fingerprints are
independent: `clear_by_query(Q1)` removes exactly the entries whose key's
query fingerprint is `Q1`'s (across all images), returns that count, and
leaves every entry fingerprinted by `Q2` intact. -/
theorem clear_by_query_independent (s : CacheState) (q1 q2 : String)
    (hwf : AllKeysWF s) (hne : q1 ≠ q2)
    (hfp : get_query_hash q1 ≠ get_query_hash q2) :
    (∀ kv ∈ s.cache, keyQueryFingerprint kv.1 = some (get_query_hash q1) →
      kv ∉ ((s.clear_by_query q1).2).cache) ∧
    (∀ kv ∈ s.cache, keyQueryFingerprint kv.1 = some (get_query_hash q2) →
      kv ∈ ((s.clear_by_query q1).2).cache) ∧
    (s.clear_by_query q1).1 =
      (s.cache.filter
        (fun kv => keyQueryFingerprint kv.1 == some (get_query_hash q1))).length := by
  have hpt : ∀ kv ∈ s.cache,
      pyEndsWith kv.1 (":" ++ get_query_hash q1) =
        (keyQueryFingerprint kv.1 == some (get_query_hash q1)) :=
    fun kv hm => pyEndsWith_eq_fingerprint_check (hwf kv hm) (hex32_md5Hex _)
  refine ⟨?_, ?_, ?_⟩
  · intro kv hm hfq hmem
    have hmem' : kv ∈ s.cache.filter
        (fun kv => ! pyEndsWith kv.1 (":" ++ get_query_hash q1)) := hmem
    rcases List.mem_filter.mp hmem' with ⟨_, hpred⟩
    rw [hpt kv hm, hfq] at hpred
    simp at hpred
  · intro kv hm hfq
    show kv ∈ s.cache.filter (fun kv => ! pyEndsWith kv.1 (":" ++ get_query_hash q1))
    refine List.mem_filter.mpr ⟨hm, ?_⟩
    rw [hpt kv hm, hfq]
    have hbe : (some (get_query_hash q2) == some (get_query_hash q1)) = false := by
      apply Bool.eq_false_iff.mpr
      intro hc
      exact hfp (Option.some_inj.mp (beq_iff_eq.mp hc)).symm
    rw [hbe]
    rfl
  · show s.cache.length -
        (s.cache.filter (fun kv => ! pyEndsWith kv.1 (":" ++ get_query_hash q1))).length = _
    rw [List.filter_congr (fun kv hm => (hpt kv hm).symm)]
    have hadd :
        (s.cache.filter (fun kv => ! pyEndsWith kv.1 (":" ++ get_query_hash q1))).length +
          (s.cache.filter (fun kv => pyEndsWith kv.1 (":" ++ get_query_hash q1))).length =
          s.cache.length :=
      length_filter_not_add _ _
    omega

/-- Witness for C2: a one-entry cache written by `set`, and the concrete
queries `"a"` and `"b"`, whose MD5 fingerprints differ. -/
theorem clear_by_query_independent_witness :
    (AllKeysWF ((⟨[], 0, 0, 0⟩ : CacheState).set ⟨"p.jpg", some [1, 2, 3]⟩ "a" true "x" "t") ∧
      "a" ≠ "b" ∧ get_query_hash "a" ≠ get_query_hash "b") ∧
    (∀ kv ∈ ((⟨[], 0, 0, 0⟩ : CacheState).set ⟨"p.jpg", some [1, 2, 3]⟩ "a" true "x" "t").cache,
      keyQueryFingerprint kv.1 = some (get_query_hash "b") →
      kv ∈ ((((⟨[], 0, 0, 0⟩ : CacheState).set
          ⟨"p.jpg", some [1, 2, 3]⟩ "a" true "x" "t").clear_by_query "a").2).cache) := by
  have hwf : AllKeysWF ((⟨[], 0, 0, 0⟩ : CacheState).set ⟨"p.jpg", some [1, 2, 3]⟩ "a" true "x" "t") := by
    intro kv hm
    rcases mem_dictInsert _ _ _ kv hm with h | h
    · rw [h]; exact wellFormedKey_cache_key _ _
    · cases h
  have hne : ("a" : String) ≠ "b" := by decide
  have hfp : get_query_hash "a" ≠ get_query_hash "b" := by decide
  exact ⟨⟨hwf, hne, hfp⟩,
    (clear_by_query_independent _ "a" "b" hwf hne hfp).2.1⟩

/-- **C8.** Loading a persisted file `{"cache": M, "metadata": ...}` and a
legacy file whose top level is the bare cache mapping `M` yield identical
in-memory cache content (for cache mappings, whose keys are
`<hex32>:<hex32>` and so never the literal key `"cache"`). -/
theorem load_cache_migration (M : List (String × Json)) (meta : Json)
    (hwf : ∀ kv ∈ M, WellFormedKey kv.1) :
    load_cache (some (.ok (Json.obj [("cache", Json.obj M), ("metadata", meta)]))) =
      Json.obj M ∧
    load_cache (some (.ok (Json.obj M))) = Json.obj M := by
  constructor
  · rfl
  · have hno : jsonHasKey (Json.obj M) "cache" = false := by
      simp only [jsonHasKey, List.any_eq_false]
      intro kv hm
      rw [strBeqFalse (wellFormedKey_ne_cache (hwf kv hm))]
      exact Bool.false_ne_true
    simp [load_cache, hno]

/-- Witness for C8 at a concrete one-entry mapping whose key was produced
by `_get_cache_key`. -/
theorem load_cache_migration_witness :
    load_cache (some (.ok (Json.obj
        [("cache", Json.obj [(get_cache_key ⟨"p.jpg", some [1]⟩ "q", Json.null)]),
         ("metadata", Json.null)]))) =
      Json.obj [(get_cache_key ⟨"p.jpg", some [1]⟩ "q", Json.null)] ∧
    load_cache (some (.ok (Json.obj [(get_cache_key ⟨"p.jpg", some [1]⟩ "q", Json.null)]))) =
      Json.obj [(get_cache_key ⟨"p.jpg", some [1]⟩ "q", Json.null)] := by
  apply load_cache_migration
  intro kv hm
  rcases List.mem_cons.mp hm with h | h
  · rw [h]; exact wellFormedKey_cache_key _ _
  · cases h

/-- **C9.** Every key `set` inserts has the shape
`<32-hex-image-fingerprint>:<32-hex-query-fingerprint>`, every operation
preserves that shape across the whole mapping, and on such keys the
`endswith(":" + qh)` test of `clear_by_query` and the `split(":", 1)` of
`get_queries_analyzed` recover exactly the query-fingerprint component
(the key containing exactly one `':'`). -/
theorem cache_key_shape_invariant (s : CacheState) (hwf : AllKeysWF s) :
    (∀ (img : ImageFile) (q : String), WellFormedKey (get_cache_key img q)) ∧
    (∀ (img : ImageFile) (q : String) (b : Bool) (e now : String),
      AllKeysWF (s.set img q b e now)) ∧
    (∀ (img : ImageFile) (q : String), AllKeysWF (s.get img q).2) ∧
    (∀ q : String, AllKeysWF (s.clear_by_query q).2) ∧
    AllKeysWF s.clear_all.2 ∧
    (∀ (cutoff : PyDateTime) (n : Nat) (s' : CacheState),
      s.clear_old_entries cutoff = .ok (n, s') → AllKeysWF s') ∧
    (∀ k, WellFormedKey k → colonCount k = 1 ∧
      ∃ a b : String, k = a ++ ":" ++ b ∧ keyQueryFingerprint k = some b ∧
        ∀ b' : String, Hex32 b' → (pyEndsWith k (":" ++ b') = true ↔ b' = b)) := by
  refine ⟨fun img q => wellFormedKey_cache_key img q, ?_, ?_, ?_, ?_, ?_, ?_⟩
  · intro img q b e now kv hm
    rcases mem_dictInsert _ _ _ kv hm with h | h
    · rw [h]; exact wellFormedKey_cache_key _ _
    · exact hwf kv h
  · intro img q kv hm
    rw [get_snd_cache] at hm
    exact hwf kv hm
  · intro q kv hm
    have hm' : kv ∈ s.cache.filter
        (fun kv => ! pyEndsWith kv.1 (":" ++ get_query_hash q)) := hm
    exact hwf kv (List.mem_filter.mp hm').1
  · intro kv hm
    cases hm
  · intro cutoff n s' hok kv hm
    rcases clear_old_entries_ok s cutoff n s' hok with ⟨l, hl, hc, _⟩
    rw [hc] at hm
    rcases List.mem_map.mp hm with ⟨p, hp, hpkv⟩
    have hpl : p ∈ l := (List.mem_filter.mp hp).1
    exact hwf kv (hpkv ▸ parseTimestamps_mem s.cache l hl p hpl)
  · intro k hk
    rcases hk with ⟨a, b, rfl, ha, hb⟩
    refine ⟨colonCount_key a b (hex32_no_colon ha) (hex32_no_colon hb),
      a, b, rfl, keyQueryFingerprint_key a b (hex32_no_colon ha), ?_⟩
    intro b' hb'
    exact pyEndsWith_key a b b' (by rw [hb.1, hb'.1])

/-- Witness for C9 at the empty (freshly constructed) cache state. -/
theorem cache_key_shape_invariant_witness :
    WellFormedKey (get_cache_key ⟨"photo1.jpg", some [1, 2, 3]⟩ "ocean scene") ∧
    AllKeysWF ((⟨[], 0, 0, 0⟩ : CacheState).set ⟨"photo1.jpg", some [1, 2, 3]⟩
      "ocean scene" true "water visible" "2024-01-01T00:00:00") :=
  ⟨(cache_key_shape_invariant ⟨[], 0, 0, 0⟩ (fun kv hm => absurd hm (List.not_mem_nil kv))).1 _ _,
   (cache_key_shape_invariant ⟨[], 0, 0, 0⟩ (fun kv hm => absurd hm (List.not_mem_nil kv))).2.1
      _ _ true "water visible" _⟩

/-- **C10.** The `total_queries` stats counter is 0 at construction and no
operation ever changes it, so on every reachable state it is 0 — and the
`total_queries` field inside the metadata block written by every save is
the JSON number 0. -/
theorem total_queries_always_zero (s : CacheState) (h : Reachable s) :
    s.total_queries = 0 ∧
    ∀ now, jsonGet (jsonGet (jsonGet (saveData s now) "metadata") "stats") "total_queries" =
      Json.num 0 := by
  have hz : s.total_queries = 0 := by
    induction h with
    | init c => rfl
    | get s img q h ih =>
      simp only [CacheState.get]
      cases List.lookup (get_cache_key img q) s.cache <;> exact ih
    | set s img q b e now h ih => exact ih
    | clear_by_query s q h ih => exact ih
    | clear_all s h ih => exact ih
    | clear_old_entries s cutoff n s' h hok ih =>
      rcases clear_old_entries_ok s cutoff n s' hok with ⟨l, _, _, _, _, htq⟩
      rw [htq]; exact ih
  refine ⟨hz, fun now => ?_⟩
  simp only [saveData, jsonGet, List.lookup, hz]
  rfl

/-- Witness for C10 at a freshly constructed state. -/
theorem total_queries_always_zero_witness :
    (⟨[], 0, 0, 0⟩ : CacheState).total_queries = 0 ∧
    jsonGet (jsonGet (jsonGet (saveData ⟨[], 0, 0, 0⟩ "2024-01-01T00:00:00") "metadata")
        "stats") "total_queries" = Json.num 0 :=
  ⟨(total_queries_always_zero ⟨[], 0, 0, 0⟩ (Reachable.init [])).1,
   (total_queries_always_zero ⟨[], 0, 0, 0⟩ (Reachable.init [])).2 "2024-01-01T00:00:00"⟩
